import Mathlib

/-!
# Verification of the `ring` ICMP echo utility

Shallow embedding of `src/main.rs` (a minimal ping clone) and proofs of the
specification's testable properties: the RFC 1071 Internet checksum, ICMP
echo-request packet construction, socket configuration, and the run-loop
statistics accumulation and reporting.

Bytes are modelled as `Nat` values (< 256 in the real program); the Rust `u32`
checksum accumulator is modelled exactly over `Nat` (Rust's checked arithmetic
panics on overflow, which is unreachable for the packets this program builds).
Durations are modelled as `Nat` nanoseconds, mirroring `std::time::Duration`.
The one `f32` computation (the printed loss percentage) is modelled with exact
rationals and half-to-even rounding; its rounded value is asserted only at
concrete inputs where that model provably agrees with the `f32` computation
(see `loss_percent_printed`).
-/

namespace IcmpRing

/-! ## Packet codec: `compute_checksum` (src/main.rs lines 185-203) -/

/-- The carry-folding loop of `compute_checksum`:
`while (sum >> 16) > 0 { sum = (sum & 0xFFFF) + (sum >> 16); }`.
`sum >> 16` is `sum / 65536` and `sum & 0xFFFF` is `sum % 65536`. -/
def foldCarry (sum : Nat) : Nat :=
  if h : 0 < sum / 65536 then foldCarry (sum % 65536 + sum / 65536) else sum
termination_by sum
decreasing_by
  have := Nat.div_add_mod sum 65536
  omega

/-- The word-accumulation part of `compute_checksum`: `chunks_exact(2)` summed
as big-endian 16-bit words (`u16::from_be_bytes([chunk[0], chunk[1]])`, i.e.
`chunk[0] * 256 + chunk[1]` for bytes), and a trailing odd byte contributing
`(last_byte as u16) << 8`, i.e. `last_byte * 256`. -/
def sumWords : List Nat → Nat
  | b0 :: b1 :: rest => b0 * 256 + b1 + sumWords rest
  | [b] => b * 256
  | [] => 0

/-- `compute_checksum`: accumulate the big-endian 16-bit words, fold the
carries, and return the bitwise complement `!(sum as u16)`, which for
`sum < 2^16` is `65535 - sum`. -/
def compute_checksum (data : List Nat) : Nat :=
  65535 - foldCarry (sumWords data)

/-! ### Lemmas about the carry fold -/

theorem foldCarry_lt (x : Nat) : foldCarry x < 65536 := by
  induction x using Nat.strong_induction_on with
  | _ x ih =>
    unfold foldCarry
    split
    · rename_i h
      apply ih
      have := Nat.div_add_mod x 65536
      omega
    · rename_i h
      omega

theorem foldCarry_le (x : Nat) : foldCarry x ≤ x := by
  induction x using Nat.strong_induction_on with
  | _ x ih =>
    unfold foldCarry
    split
    · rename_i h
      have hlt : x % 65536 + x / 65536 < x := by
        have := Nat.div_add_mod x 65536
        omega
      exact le_trans (ih _ hlt) (le_of_lt hlt)
    · exact le_refl x

theorem foldCarry_mod (x : Nat) : foldCarry x % 65535 = x % 65535 := by
  induction x using Nat.strong_induction_on with
  | _ x ih =>
    unfold foldCarry
    split
    · rename_i h
      have hlt : x % 65536 + x / 65536 < x := by
        have := Nat.div_add_mod x 65536
        omega
      rw [ih _ hlt]
      have := Nat.div_add_mod x 65536
      omega
    · rfl

theorem foldCarry_pos (x : Nat) (hx : 0 < x) : 0 < foldCarry x := by
  induction x using Nat.strong_induction_on with
  | _ x ih =>
    unfold foldCarry
    split
    · rename_i h
      have hlt : x % 65536 + x / 65536 < x := by
        have := Nat.div_add_mod x 65536
        omega
      exact ih _ hlt (by omega)
    · exact hx

/-- A positive multiple of `65535` folds to exactly `65535`. -/
theorem foldCarry_of_multiple (x : Nat) (hx : 0 < x) (hm : x % 65535 = 0) :
    foldCarry x = 65535 := by
  have h1 := foldCarry_lt x
  have h2 := foldCarry_mod x
  have h3 := foldCarry_pos x hx
  omega

/-- Value of one fold step when no carry remains: the loop exits. -/
theorem foldCarry_of_lt (x : Nat) (h : x < 65536) : foldCarry x = x := by
  unfold foldCarry
  split
  · rename_i hc
    omega
  · rfl

/-- Claim C10: `compute_checksum` is total — the carry-folding loop terminates
with all upper bits cleared, so the function returns a 16-bit value on every
finite byte sequence. -/
theorem compute_checksum_total (data : List Nat) :
    foldCarry (sumWords data) < 2 ^ 16 ∧ compute_checksum data < 2 ^ 16 := by
  constructor
  · exact foldCarry_lt (sumWords data)
  · have := foldCarry_lt (sumWords data)
    unfold compute_checksum
    omega

/-- Claim C3: on the literal vector `[0x08,0x00,0x00,0x00,0x00,0x01,0x00,0x01]`
(type 8, code 0, zero checksum, id 1, seq 1) the checksum is `0xF7FD`. -/
theorem compute_checksum_literal_vector :
    compute_checksum [0x08, 0x00, 0x00, 0x00, 0x00, 0x01, 0x00, 0x01] = 0xF7FD := by
  have h : sumWords [0x08, 0x00, 0x00, 0x00, 0x00, 0x01, 0x00, 0x01] = 0x0802 := by
    simp [sumWords]
  unfold compute_checksum
  rw [h, foldCarry_of_lt 0x0802 (by omega)]

/-- Claim C4: on the odd-length input `[0x08,0x00,0x01]` the trailing byte is
treated as the high byte of a zero-padded word, contributing `0x0100`, so the
result equals the checksum of the explicitly padded input `[0x08,0x00,0x01,0x00]`. -/
theorem compute_checksum_odd_padding :
    sumWords [0x08, 0x00, 0x01] = sumWords [0x08, 0x00] + 0x0100 ∧
    compute_checksum [0x08, 0x00, 0x01] = compute_checksum [0x08, 0x00, 0x01, 0x00] := by
  constructor
  · simp [sumWords]
  · have h1 : sumWords [0x08, 0x00, 0x01] = 0x0900 := by simp [sumWords]
    have h2 : sumWords [0x08, 0x00, 0x01, 0x00] = 0x0900 := by simp [sumWords]
    unfold compute_checksum
    rw [h1, h2]

/-- Claim C1: for every byte sequence whose checksum field (bytes 2-3) is
zeroed, computing the Internet checksum and writing it back big-endian
(`packet[2] = checksum >> 8; packet[3] = checksum & 0xFF`) yields a buffer on
which the recomputed checksum is `0x0000`. -/
theorem checksum_fill_verifies (b0 b1 : Nat) (rest : List Nat) :
    compute_checksum
      (b0 :: b1 ::
        compute_checksum (b0 :: b1 :: 0 :: 0 :: rest) / 2 ^ 8 ::
        compute_checksum (b0 :: b1 :: 0 :: 0 :: rest) % 2 ^ 8 :: rest) = 0 := by
  have hX : sumWords (b0 :: b1 :: 0 :: 0 :: rest) = b0 * 256 + b1 + sumWords rest := by
    simp [sumWords]
  set X := sumWords (b0 :: b1 :: 0 :: 0 :: rest) with hXdef
  set S := foldCarry X with hS
  have hSle : S ≤ 65535 := by have := foldCarry_lt X; omega
  have hSleX : S ≤ X := foldCarry_le X
  have hSmod : S % 65535 = X % 65535 := foldCarry_mod X
  have hc : compute_checksum (b0 :: b1 :: 0 :: 0 :: rest) = 65535 - S := rfl
  rw [hc]
  have hY : sumWords (b0 :: b1 :: (65535 - S) / 2 ^ 8 :: (65535 - S) % 2 ^ 8 :: rest)
      = X + (65535 - S) := by
    have hdm := Nat.div_add_mod (65535 - S) 256
    simp only [sumWords]
    omega
  unfold compute_checksum
  rw [hY]
  have hmul : foldCarry (X + (65535 - S)) = 65535 := by
    apply foldCarry_of_multiple
    · omega
    · omega
  omega

/-! ## Packet codec: `create_icmp_packet` (src/main.rs lines 154-183) -/

/-- The two address families of `std::net::IpAddr`. -/
inductive IpAddrKind
  | V4
  | V6
deriving DecidableEq

/-- The packet buffer right before the checksum write-back (lines 155-176):
an 8-byte header — type (8 for V4, 128 for V6), code 0, zeroed checksum,
identifier `0x0001`, sequence `0x0001` — followed by the payload.
The payload bytes come from `rand::thread_rng().fill`, abstracted here as an
explicit list parameter (its length is `payload_size`). -/
def icmp_packet_zeroed (payload : List Nat) (target : IpAddrKind) : List Nat :=
  (match target with | .V4 => 8 | .V6 => 128) :: 0 :: 0 :: 0 :: 0 :: 1 :: 0 :: 1 :: payload

/-- `create_icmp_packet`: build the zero-checksum buffer, compute the checksum
over it, and write it back big-endian (`packet[2] = (checksum >> 8) as u8;
packet[3] = (checksum & 0xFF) as u8`, i.e. `/ 2^8` and `% 2^8`). -/
def create_icmp_packet (payload : List Nat) (target : IpAddrKind) : List Nat :=
  let packet := icmp_packet_zeroed payload target
  let checksum := compute_checksum packet
  (packet.set 2 (checksum / 2 ^ 8)).set 3 (checksum % 2 ^ 8)

/-- Claim C2: for every payload size `p`, the V4 echo request has `8 + p`
bytes, type byte 8, code byte 0, and bytes 2-3 are exactly the checksum
recomputed over the packet with bytes 2-3 zeroed, in big-endian order. -/
theorem create_icmp_packet_spec (p : Nat) (payload : List Nat)
    (h : payload.length = p) :
    (create_icmp_packet payload .V4).length = 8 + p ∧
    (create_icmp_packet payload .V4)[0]? = some 8 ∧
    (create_icmp_packet payload .V4)[1]? = some 0 ∧
    (create_icmp_packet payload .V4)[2]? =
      some (compute_checksum (((create_icmp_packet payload .V4).set 2 0).set 3 0) / 2 ^ 8) ∧
    (create_icmp_packet payload .V4)[3]? =
      some (compute_checksum (((create_icmp_packet payload .V4).set 2 0).set 3 0) % 2 ^ 8) := by
  subst h
  simp [create_icmp_packet, icmp_packet_zeroed, List.set]
  omega

/-- Witness for C2 at the concrete payload `[1, 2, 3]` (so `p = 3`). -/
theorem create_icmp_packet_spec_witness :
    ([1, 2, 3] : List Nat).length = 3 ∧
    ((create_icmp_packet [1, 2, 3] .V4).length = 8 + 3 ∧
    (create_icmp_packet [1, 2, 3] .V4)[0]? = some 8 ∧
    (create_icmp_packet [1, 2, 3] .V4)[1]? = some 0 ∧
    (create_icmp_packet [1, 2, 3] .V4)[2]? =
      some (compute_checksum (((create_icmp_packet [1, 2, 3] .V4).set 2 0).set 3 0) / 2 ^ 8) ∧
    (create_icmp_packet [1, 2, 3] .V4)[3]? =
      some (compute_checksum (((create_icmp_packet [1, 2, 3] .V4).set 2 0).set 3 0) % 2 ^ 8)) :=
  ⟨rfl, create_icmp_packet_spec 3 [1, 2, 3] rfl⟩

/-! ## Probe engine: `run_ring` (src/main.rs lines 60-127)

`send_and_receive_ring` performs real I/O; its result for attempt `i` is
abstracted as an oracle `Nat → AttemptResult`. Durations are `Nat`
nanoseconds (`std::time::Duration`); `as_millis` is division by `10^6`. -/

/-- Outcome of one attempt: `Ok(rtt)` from `send_and_receive_ring`, or any
`Err` (timeout or other receive error), which the loop treats uniformly as
"Request timed out.". -/
inductive AttemptResult
  | reply (rtt : Nat)
  | timeout
deriving DecidableEq

/-- `Duration::as_millis` on a nanosecond count. -/
def as_millis (nanos : Nat) : Nat := nanos / 1000000

/-- `Duration::MAX` in nanoseconds: `u64::MAX` seconds plus `999_999_999` ns. -/
def durationMax : Nat := (2 ^ 64 - 1) * 1000000000 + 999999999

/-- The mutable accumulators of `run_ring` (lines 69-73). -/
structure RunStats where
  sent : Nat
  received : Nat
  min_rtt : Nat
  max_rtt : Nat
  total_rtt : Nat
deriving DecidableEq

/-- Initial statistics (lines 69-73): zero counters, `min_rtt = Duration::MAX`,
`max_rtt = Duration::ZERO`, `total_rtt = Duration::ZERO`. -/
def initStats : RunStats :=
  { sent := 0, received := 0, min_rtt := durationMax, max_rtt := 0, total_rtt := 0 }

/-- One loop-body iteration (lines 76-98): on `Ok(rtt)` increment `received`
and fold the duration into total/min/max; in either case increment `sent`. -/
def step (st : RunStats) : AttemptResult → RunStats
  | .reply rtt =>
      { sent := st.sent + 1, received := st.received + 1,
        min_rtt := min st.min_rtt rtt, max_rtt := max st.max_rtt rtt,
        total_rtt := st.total_rtt + rtt }
  | .timeout =>
      { st with sent := st.sent + 1 }

/-- The bounded-mode `while count > 0` loop (lines 75-103), which decrements
`count` each iteration and so runs exactly `count.toNat` times; `i` is the
index of the current attempt fed to the oracle. -/
def run_loop (oracle : Nat → AttemptResult) : Nat → Nat → RunStats → RunStats
  | 0, _, st => st
  | n + 1, i, st => run_loop oracle n (i + 1) (step st (oracle i))

/-- `run_ring` in bounded (non-continuous) mode with an `i32` count: the loop
body runs `count.toNat` times (zero times for `count ≤ 0`). -/
def run_ring (count : Int) (oracle : Nat → AttemptResult) : RunStats :=
  run_loop oracle count.toNat 0 initStats

/-- Round a rational to the nearest integer, rounding exact halves to the
even neighbour — the rounding used by Rust's `{:.0}` float formatting. -/
def roundHalfEven (q : ℚ) : Int :=
  if q - ⌊q⌋ < 1 / 2 then ⌊q⌋
  else if (1 : ℚ) / 2 < q - ⌊q⌋ then ⌊q⌋ + 1
  else if ⌊q⌋ % 2 = 0 then ⌊q⌋ else ⌊q⌋ + 1

/-- The loss percentage `run_ring` prints (lines 107-116): the code computes
`100.0 * (sent - received) as f32 / sent as f32` and formats it with `{:.0}`,
which rounds to the nearest integer, halves to the even neighbour; when
`sent = 0` it prints `0`. Modelled with exact rational arithmetic and
half-to-even rounding. The `f32` division error (relative error below
`2^-24`) is not modelled, so this definition is exact only where that error
cannot move the value across a rounding boundary; the theorems below consult
the rounded value solely at inputs where the rational value is exactly
representable in `f32` (`25`, `12.5`) or lies far from a boundary relative to
that error (`200/3`), so model and program agree at each consulted input. -/
def loss_percent_printed (sent received : Nat) : Int :=
  if 0 < sent then
    roundHalfEven ((100 : ℚ) * ((sent : ℚ) - (received : ℚ)) / (sent : ℚ))
  else 0

/-- The summary block printed after the loop (lines 105-126). -/
structure SummaryReport where
  sent : Nat
  received : Nat
  lost : Nat
  lossPercent : Int
  rtt_line : Option (Nat × Nat × Nat)
deriving DecidableEq

/-- Build the summary from the final statistics: packet counts with the
rounded loss percentage, and — only when `received > 0` — the
`Minimum/Maximum/Average` line, each in whole milliseconds with
`Average = total_rtt.as_millis() / received`. -/
def final_report (st : RunStats) : SummaryReport :=
  { sent := st.sent, received := st.received, lost := st.sent - st.received,
    lossPercent := loss_percent_printed st.sent st.received,
    rtt_line :=
      if 0 < st.received then
        some (as_millis st.min_rtt, as_millis st.max_rtt,
          as_millis st.total_rtt / st.received)
      else none }

/-- The sequence of oracle outcomes consumed by `run_loop oracle n i`. -/
def attemptList (oracle : Nat → AttemptResult) : Nat → Nat → List AttemptResult
  | _, 0 => []
  | i, n + 1 => oracle i :: attemptList oracle (i + 1) n

/-- Whether an attempt produced a reply. -/
def isReply : AttemptResult → Bool
  | .reply _ => true
  | .timeout => false

theorem attemptList_length (oracle : Nat → AttemptResult) (i n : Nat) :
    (attemptList oracle i n).length = n := by
  induction n generalizing i with
  | zero => rfl
  | succ n ih => simp [attemptList, ih]

theorem run_loop_sent (oracle : Nat → AttemptResult) (n i : Nat) (st : RunStats) :
    (run_loop oracle n i st).sent = st.sent + n := by
  induction n generalizing i st with
  | zero => rfl
  | succ n ih =>
    rw [run_loop, ih]
    cases h : oracle i <;> simp [step] <;> omega

theorem run_loop_received (oracle : Nat → AttemptResult) (n i : Nat) (st : RunStats) :
    (run_loop oracle n i st).received =
      st.received + (attemptList oracle i n).countP isReply := by
  induction n generalizing i st with
  | zero => rfl
  | succ n ih =>
    rw [run_loop, ih, attemptList]
    cases h : oracle i
    all_goals simp [step, isReply, List.countP_cons]
    all_goals omega

/-- Total count of each kind of outcome in an attempt list: every attempt is
either a reply or counted as lost. -/
theorem attemptList_countP_split (oracle : Nat → AttemptResult) (i n : Nat) :
    (attemptList oracle i n).countP isReply +
      (attemptList oracle i n).countP (fun r => ! isReply r) = n := by
  have hl := List.length_eq_countP_add_countP isReply (attemptList oracle i n)
  have hlen := attemptList_length oracle i n
  simp only [decide_not, Bool.decide_coe] at hl
  omega

/-- Claim C8: in bounded mode with count `c > 0` the loop performs exactly `c`
attempts whatever the per-attempt outcomes are: `sent` ends at `c`, `received`
is the number of replies among the `c` outcomes, and every failed attempt is
recorded as a lost packet while the loop continues. -/
theorem bounded_run_never_aborts (c : Int) (_h : 0 < c) (oracle : Nat → AttemptResult) :
    (run_ring c oracle).sent = c.toNat ∧
    (run_ring c oracle).received = (attemptList oracle 0 c.toNat).countP isReply ∧
    (run_ring c oracle).sent - (run_ring c oracle).received =
      (attemptList oracle 0 c.toNat).countP (fun r => ! isReply r) := by
  have hs : (run_ring c oracle).sent = c.toNat := by
    unfold run_ring
    rw [run_loop_sent]
    simp [initStats]
  have hr : (run_ring c oracle).received = (attemptList oracle 0 c.toNat).countP isReply := by
    unfold run_ring
    rw [run_loop_received]
    simp [initStats]
  have hsplit := attemptList_countP_split oracle 0 c.toNat
  refine ⟨hs, hr, by omega⟩

/-- An oracle for which every attempt fails. -/
def oracleTimeout : Nat → AttemptResult := fun _ => .timeout

/-- Witness for C8 at `c = 2` with an all-timeout oracle. -/
theorem bounded_run_never_aborts_witness :
    0 < (2 : Int) ∧
    ((run_ring 2 oracleTimeout).sent = (2 : Int).toNat ∧
     (run_ring 2 oracleTimeout).received =
       (attemptList oracleTimeout 0 (2 : Int).toNat).countP isReply ∧
     (run_ring 2 oracleTimeout).sent - (run_ring 2 oracleTimeout).received =
       (attemptList oracleTimeout 0 (2 : Int).toNat).countP (fun r => ! isReply r)) :=
  ⟨by decide, bounded_run_never_aborts 2 (by decide) oracleTimeout⟩

/-- Claim C7: with count resolved to 0 in bounded mode no attempt is made:
`sent = 0`, `received = 0`, the loss percentage is reported as 0 (the code
guards the division with `if sent > 0`), and no RTT summary line is printed. -/
theorem zero_count_run :
    (run_ring 0 oracleTimeout).sent = 0 ∧
    (run_ring 0 oracleTimeout).received = 0 ∧
    (final_report (run_ring 0 oracleTimeout)).lossPercent = 0 ∧
    (final_report (run_ring 0 oracleTimeout)).rtt_line = none := by
  decide

/-- The outcome sequence of the spec's statistics example:
`[Reply(10ms), Timeout, Reply(30ms), Reply(20ms)]` (durations in ns). -/
def oracleC5 : Nat → AttemptResult := fun i =>
  [AttemptResult.reply 10000000, AttemptResult.timeout,
   AttemptResult.reply 30000000, AttemptResult.reply 20000000].getD i .timeout

/-- Claim C5: folding `[Reply(10ms), Timeout, Reply(30ms), Reply(20ms)]`
through the run loop yields sent 4, received 3, 25% loss, min 10ms, max 30ms,
and average `60ms / 3 = 20ms`. -/
theorem run_statistics_example :
    (run_ring 4 oracleC5).sent = 4 ∧
    (run_ring 4 oracleC5).received = 3 ∧
    (final_report (run_ring 4 oracleC5)).lossPercent = 25 ∧
    as_millis (run_ring 4 oracleC5).min_rtt = 10 ∧
    as_millis (run_ring 4 oracleC5).max_rtt = 30 ∧
    as_millis (run_ring 4 oracleC5).total_rtt = 60 ∧
    as_millis (run_ring 4 oracleC5).total_rtt / (run_ring 4 oracleC5).received = 20 := by
  have hst : run_ring 4 oracleC5 =
      { sent := 4, received := 3, min_rtt := 10000000, max_rtt := 30000000,
        total_rtt := 60000000 } := by decide
  refine ⟨by decide, by decide, ?_, by decide, by decide, by decide, by decide⟩
  rw [hst]
  simp only [final_report, loss_percent_printed]
  norm_num [roundHalfEven]

/-- An outcome sequence with one reply out of three attempts. -/
def oracleC6 : Nat → AttemptResult := fun i =>
  if i = 0 then .reply 10000000 else .timeout

/-- An outcome sequence with one timeout out of eight attempts. -/
def oracleC6tie : Nat → AttemptResult := fun i =>
  if i = 0 then .timeout else .reply 10000000

/-- Counterexample to claim C6 as stated: after 3 attempts with 1 reply the
program computes `100.0 * 2.0 / 3.0 = 66.666664f32` and `{:.0}` prints a loss
of 67%, while the claim's truncating integer expression
`100 * (sent - received) / sent` gives 66. The final conjuncts check the
model at an exact half-integer: 8 attempts with 7 replies give `12.5`, which
`{:.0}` rounds to the even neighbour, printing 12 — as does the model. -/
theorem loss_percent_rounding_counterexample :
    (run_ring 3 oracleC6).sent = 3 ∧
    (run_ring 3 oracleC6).received = 1 ∧
    (final_report (run_ring 3 oracleC6)).lossPercent = 67 ∧
    100 * ((run_ring 3 oracleC6).sent - (run_ring 3 oracleC6).received) /
      (run_ring 3 oracleC6).sent = 66 ∧
    (run_ring 8 oracleC6tie).sent = 8 ∧
    (run_ring 8 oracleC6tie).received = 7 ∧
    (final_report (run_ring 8 oracleC6tie)).lossPercent = 12 := by
  have hst : run_ring 3 oracleC6 =
      { sent := 3, received := 1, min_rtt := 10000000, max_rtt := 10000000,
        total_rtt := 10000000 } := by decide
  have htie : run_ring 8 oracleC6tie =
      { sent := 8, received := 7, min_rtt := 10000000, max_rtt := 10000000,
        total_rtt := 70000000 } := by decide
  refine ⟨by decide, by decide, ?_, by decide, by decide, by decide, ?_⟩
  · rw [hst]
    simp only [final_report, loss_percent_printed]
    norm_num [roundHalfEven]
  · rw [htie]
    simp only [final_report, loss_percent_printed]
    norm_num [roundHalfEven]

/-- Claim C6, amended: for every bounded run `received` never exceeds `sent`;
the reported loss percentage is 0 when `sent = 0`; when `sent > 0` the loss is
computed in floating point as `100 * (sent - received) / sent` and printed by
`{:.0}` rounded to the nearest integer (halves to even), not truncated — at
sent 3, received 1 the program prints 67 while the truncating integer
expression gives 66 (established at that input by the counterexample above);
and the RTT line is printed exactly when `received > 0`, with the average
being the integer division of the total round-trip time in whole milliseconds
by `received`. The universally quantified conjuncts below are the float-free
parts; the floating-point loss value itself is asserted only at the concrete
checked inputs of the counterexample. -/
theorem summary_report_formulas (c : Int) (oracle : Nat → AttemptResult) :
    (run_ring c oracle).received ≤ (run_ring c oracle).sent ∧
    (0 < (run_ring c oracle).sent ∨ (final_report (run_ring c oracle)).lossPercent = 0) ∧
    (final_report (run_ring c oracle)).rtt_line =
      (if 0 < (run_ring c oracle).received then
        some (as_millis (run_ring c oracle).min_rtt,
          as_millis (run_ring c oracle).max_rtt,
          as_millis (run_ring c oracle).total_rtt / (run_ring c oracle).received)
      else none) := by
  refine ⟨?_, ?_, rfl⟩
  · have hs : (run_ring c oracle).sent = c.toNat := by
      unfold run_ring
      rw [run_loop_sent]
      simp [initStats]
    have hr : (run_ring c oracle).received =
        (attemptList oracle 0 c.toNat).countP isReply := by
      unfold run_ring
      rw [run_loop_received]
      simp [initStats]
    have hsplit := attemptList_countP_split oracle 0 c.toNat
    have hlen := attemptList_length oracle 0 c.toNat
    omega
  · rcases Nat.eq_zero_or_pos (run_ring c oracle).sent with h0 | hpos
    · right
      simp [final_report, loss_percent_printed, h0]
    · left
      exact hpos

/-! ## Socket configuration: `create_socket` (src/main.rs lines 129-152) -/

/-- The TTL-like socket options relevant here, by the `socket2` method that
sets them: `set_ttl` sets `IP_TTL` (the IPv4 unicast TTL),
`set_multicast_ttl_v4` sets `IP_MULTICAST_TTL` (IPv4 multicast TTL), and
`set_unicast_hops_v6` sets `IPV6_UNICAST_HOPS` (the IPv6 hop limit) — the
last one is never called by this program. -/
inductive TtlSocketOption
  | ip_ttl
  | ip_multicast_ttl_v4
  | ipv6_unicast_hops
deriving DecidableEq

/-- The observable configuration `create_socket` applies to the raw socket. -/
structure SocketConfig where
  read_timeout_ms : Nat
  write_timeout_ms : Nat
  ttl_option : TtlSocketOption
  ttl_value : Nat
deriving DecidableEq

/-- `create_socket` (lines 129-152): both timeouts are set to `timeout`
milliseconds, and then `if let IpAddr::V6(_) = target { socket.set_ttl(ttl) }
else { socket.set_multicast_ttl_v4(ttl) }` — i.e. V6 targets get the `IP_TTL`
option and V4 targets the `IP_MULTICAST_TTL` option. -/
def create_socket (target : IpAddrKind) (ttl : Nat) (timeout : Nat) : SocketConfig :=
  { read_timeout_ms := timeout, write_timeout_ms := timeout,
    ttl_option :=
      match target with
      | .V6 => .ip_ttl
      | .V4 => .ip_multicast_ttl_v4,
    ttl_value := ttl }

/-- Claim C9, evaluated at the failing input (a V6 target, ttl 128, timeout
1000ms): the timeouts are both set to the configured value, but the TTL is
applied through `set_ttl`, the IPv4 `IP_TTL` option, not the IPv6 hop-limit
option the claim requires. -/
theorem create_socket_v6_wrong_option :
    (create_socket .V6 128 1000).read_timeout_ms = 1000 ∧
    (create_socket .V6 128 1000).write_timeout_ms = 1000 ∧
    (create_socket .V6 128 1000).ttl_value = 128 ∧
    (create_socket .V6 128 1000).ttl_option = TtlSocketOption.ip_ttl ∧
    (create_socket .V6 128 1000).ttl_option ≠ TtlSocketOption.ipv6_unicast_hops := by
  decide

end IcmpRing
